import Mathlib

/-!
Verification of the document-processing and multi-provider dispatch core of the
child-young-care repository (`src/document_processor.py`, `src/agent_core.py`).

The Python code is shallowly embedded: Python `str` values are Lean `String`s
(sequences of code points, matching Python's semantics for indexing, slicing and
`len`); Python lists are Lean `List`s; fallible operations return `Option` or
`Except`.  Calls to external network services (the OpenAI / Anthropic / xAI
clients) and to the binary file-format extractors (PyPDF2, python-docx) are
abstracted as oracles supplied per call: an oracle answers either with the
response text (`Except.ok`) or with the message of the exception the call would
raise (`Except.error`).  Everything on our side of that boundary is translated
from the source.
-/

/-- Python truthiness for an optional string argument (`if key:`):
`None` and the empty string are falsy. -/
def pyTruthy : Option String → Bool
  | none => false
  | some s => !(s == "")

/-- Python string slice `s[:n]`. -/
def strTake (s : String) (n : Nat) : String :=
  String.mk (s.toList.take n)

/-- Split a code-point list at every separator character (Python
`str.split(sep)` with a one-character separator): consecutive separators
yield empty pieces and the empty input yields one empty piece. -/
def pySplitChar (p : Char → Bool) : List Char → List (List Char)
  | [] => [[]]
  | c :: rest =>
    let r := pySplitChar p rest
    if p c then [] :: r
    else
      match r with
      | [] => [[c]]
      | w :: ws => (c :: w) :: ws

/-- Python `str.split()` with no separator: split on whitespace and drop the
empty pieces, so the empty string yields the empty list. -/
def pySplitWS (s : String) : List String :=
  ((pySplitChar (fun c => c.isWhitespace) s.toList).map String.mk).filter
    (fun w => !(w == ""))

/-- Python `str.lower()`, applied code point by code point (ASCII case
mapping, as in Lean's `Char.toLower`). -/
def strToLower (s : String) : String :=
  String.mk (s.toList.map Char.toLower)

/-- `needle` is a prefix of `hay` (helper for the substring test). -/
def isPfxOf : List Char → List Char → Bool
  | [], _ => true
  | _ :: _, [] => false
  | a :: as, b :: bs => (a == b) && isPfxOf as bs

/-- Python's `needle in hay` substring test on strings, on the code-point
lists; the empty needle is contained in everything. -/
def isSubstrOf (needle : List Char) : List Char → Bool
  | [] => isPfxOf needle []
  | h :: t => isPfxOf needle (h :: t) || isSubstrOf needle t

/-! ## Chunker (`DocumentProcessor._split_into_chunks`) -/

/-- Ceiling division `⌈m / s⌉` on naturals, used to state the chunk count. -/
def cdiv (m s : Nat) : Nat := (m + s - 1) / s

/-- The `while start < len(text)` loop of `_split_into_chunks`: emit
`text[start : start + chunk_size]`, advance `start` by
`chunk_size - chunk_overlap`.  The loop in the source has no fuel; the fuel
only bounds the recursion depth in Lean, and `splitIntoChunksL` passes enough
fuel that it is never exhausted when `chunk_overlap < chunk_size`
(`chunkLoop_spec`).  When `chunk_size ≤ chunk_overlap` the source loops
forever on nonempty text (the spec flags this as unguarded); no claim touches
that region. -/
def chunkLoop (cs co : Nat) (t : List Char) : Nat → Nat → List (List Char)
  | 0, _ => []
  | fuel + 1, start =>
    if start < t.length then
      (t.drop start).take cs :: chunkLoop cs co t fuel (start + (cs - co))
    else []

/-- `DocumentProcessor._split_into_chunks` on the code-point list. -/
def splitIntoChunksL (cs co : Nat) (t : List Char) : List (List Char) :=
  chunkLoop cs co t (t.length + 1) 0

/-- `DocumentProcessor._split_into_chunks`: split `text` into overlapping
windows of `chunk_size` code points, advancing by
`chunk_size - chunk_overlap`. -/
def splitIntoChunks (cs co : Nat) (t : String) : List String :=
  (splitIntoChunksL cs co t.toList).map String.mk

theorem cdiv_zero (s : Nat) : cdiv 0 s = 0 := by
  unfold cdiv
  rcases Nat.eq_zero_or_pos s with hs | hs
  · simp [hs]
  · exact Nat.div_eq_of_lt (by omega)

theorem cdiv_step (m s : Nat) (hm : 0 < m) (hs : 0 < s) :
    cdiv m s = cdiv (m - s) s + 1 := by
  unfold cdiv
  rcases le_or_lt m s with h | h
  · have h1 : m - s = 0 := by omega
    rw [h1]
    have h2 : (0 + s - 1) / s = 0 := Nat.div_eq_of_lt (by omega)
    rw [h2]
    have h3 : 1 * s ≤ m + s - 1 := by omega
    have h4 : m + s - 1 < 2 * s := by omega
    calc (m + s - 1) / s = 1 := Nat.div_eq_of_lt_le h3 (by simpa [two_mul] using h4)
      _ = 0 + 1 := rfl
  · have h1 : m + s - 1 = (m - s + s - 1) + s := by omega
    rw [h1, Nat.add_div_right _ hs]

theorem cdiv_le (m s : Nat) (hs : 0 < s) : cdiv m s ≤ m := by
  induction m using Nat.strong_induction_on with
  | _ m ih =>
    rcases Nat.eq_zero_or_pos m with hm | hm
    · simp [hm, cdiv_zero]
    · rw [cdiv_step m s hm hs]
      have hlt : m - s < m := by omega
      have := ih (m - s) hlt
      omega

theorem chunkLoop_spec (cs co : Nat) (t : List Char) (h : co < cs) :
    ∀ fuel start, cdiv (t.length - start) (cs - co) < fuel →
      chunkLoop cs co t fuel start =
        (List.range (cdiv (t.length - start) (cs - co))).map
          (fun k => (t.drop (start + k * (cs - co))).take cs) := by
  intro fuel
  induction fuel with
  | zero => intro start hfuel; omega
  | succ fuel ih =>
    intro start hfuel
    by_cases hlt : start < t.length
    · have hstep : 0 < cs - co := by omega
      have hm : 0 < t.length - start := by omega
      have hn := cdiv_step (t.length - start) (cs - co) hm hstep
      have harg : t.length - start - (cs - co) = t.length - (start + (cs - co)) := by omega
      rw [harg] at hn
      have hrec := ih (start + (cs - co)) (by omega)
      rw [chunkLoop]
      simp only [hlt, if_true]
      rw [hrec, hn, List.range_succ_eq_map]
      simp only [List.map_cons, List.map_map]
      refine congrArg₂ List.cons ?_ ?_
      · rw [Nat.zero_mul, Nat.add_zero]
      · apply List.map_congr_left
        intro k _
        simp only [Function.comp_apply, Nat.succ_mul]
        congr 2
        omega
    · have hz : t.length - start = 0 := by omega
      rw [chunkLoop]
      simp [hlt, hz, cdiv_zero]

theorem splitIntoChunksL_eq (cs co : Nat) (t : List Char) (h : co < cs) :
    splitIntoChunksL cs co t =
      (List.range (cdiv t.length (cs - co))).map
        (fun k => (t.drop (k * (cs - co))).take cs) := by
  unfold splitIntoChunksL
  have hstep : 0 < cs - co := by omega
  have hfuel : cdiv (t.length - 0) (cs - co) < t.length + 1 := by
    have := cdiv_le t.length (cs - co) hstep
    simpa using Nat.lt_succ_of_le (by simpa using this)
  rw [chunkLoop_spec cs co t h (t.length + 1) 0 hfuel]
  simp

theorem cdiv_count_iff (m s k : Nat) (hs : 0 < s) :
    k < cdiv m s ↔ k * s < m := by
  rcases Nat.eq_zero_or_pos m with hm | hm
  · subst hm
    rw [cdiv_zero]
    simp
  · unfold cdiv
    rw [show (k < (m + s - 1) / s) ↔ (k + 1 ≤ (m + s - 1) / s) from Iff.rfl,
      Nat.le_div_iff_mul_le hs, Nat.add_mul, one_mul]
    constructor <;> intro <;> omega

/-! ## Document store (`DocumentProcessor`) -/

/-- A processed document as stored in `self.processed_documents`
(`doc_info` in `process_file`): original text, the chunk count and the
chunk list. -/
structure DocInfo where
  filename : String
  file_type : String
  text : String
  chunks : Nat
  chunk_list : List String
deriving DecidableEq

/-- `DocumentProcessor.__init__`: chunking configuration plus the in-memory
document store. -/
structure DocumentProcessor where
  chunk_size : Nat
  chunk_overlap : Nat
  processed_documents : List DocInfo
deriving DecidableEq

/-- A fresh `DocumentProcessor()` with the default configuration
(window 1000, overlap 200, empty store). -/
def defaultProcessor : DocumentProcessor := ⟨1000, 200, []⟩

/-- An uploaded file: its name plus, for each extractor the source could
dispatch to, the outcome of running that extractor on the file's bytes
(`Except.error` carries `str(e)` of the exception the extractor raises).
PyPDF2 / python-docx / UTF-8 decoding internals are outside the embedding
boundary. -/
structure UploadedFile where
  name : String
  pdfText : Except String String
  docxText : Except String String
  rawText : Except String String

/-- The dictionary `process_file` returns: either
`{"success": True, "filename": ..., "chunks": ..., "preview": ...}` or
`{"success": False, "error": ...}`. -/
inductive ProcessResult where
  | ok (filename : String) (chunks : Nat) (preview : String)
  | err (error : String)
deriving DecidableEq

/-- `uploaded_file.name.split('.')[-1].lower()`. -/
def fileExtension (name : String) : String :=
  strToLower (((pySplitChar (fun c => c == '.') name.toList).map String.mk).getLastD "")

/-- `DocumentProcessor.process_file`: dispatch on the file extension, run the
matching extractor, chunk the text, append the document to the store and
return the success dictionary; unsupported extensions and extractor
exceptions are returned as error dictionaries (the `try`/`except` in the
source) and leave the store untouched. -/
def processFile (dp : DocumentProcessor) (f : UploadedFile) :
    ProcessResult × DocumentProcessor :=
  let ext := fileExtension f.name
  match (if ext == "pdf" then some f.pdfText
         else if ext == "docx" then some f.docxText
         else if ext == "txt" || ext == "md" then some f.rawText
         else none) with
  | none => (ProcessResult.err ("Unsupported file type: " ++ ext), dp)
  | some (Except.error e) => (ProcessResult.err e, dp)
  | some (Except.ok text) =>
    let chunks := splitIntoChunks dp.chunk_size dp.chunk_overlap text
    (ProcessResult.ok f.name chunks.length
       (if 500 < text.toList.length then strTake text 500 ++ "..." else text),
     { dp with processed_documents :=
        dp.processed_documents ++ [⟨f.name, ext, text, chunks.length, chunks⟩] })

/-! ## Retriever (`DocumentProcessor.search_documents`) -/

/-- One element of the `results` list of `search_documents`. -/
structure SearchResult where
  filename : String
  chunk_index : Nat
  content : String
  relevance : Nat
deriving DecidableEq

/-- The relevance score of one chunk:
`sum(1 for word in query_lower.split() if word in chunk.lower())` —
the number of query terms (with repetition) occurring as a literal
substring of the lower-cased chunk. -/
def relevance_score (query_lower chunk : String) : Nat :=
  (pySplitWS query_lower).countP
    (fun word => isSubstrOf word.toList (strToLower chunk).toList)

/-- The inner `for i, chunk in enumerate(doc['chunk_list'])` loop: the
score-positive chunks of one document, in chunk-index order. -/
def docCandidates (query_lower : String) (doc : DocInfo) : List SearchResult :=
  doc.chunk_list.enum.filterMap (fun p =>
    let score := relevance_score query_lower p.2
    if 0 < score then some ⟨doc.filename, p.1, p.2, score⟩ else none)

/-- The full `results` list before sorting: documents in insertion order,
chunks in index order. -/
def searchCandidates (dp : DocumentProcessor) (query : String) : List SearchResult :=
  (dp.processed_documents.map (docCandidates (strToLower query))).flatten

/-- One step of a stable descending insertion sort on `relevance`: the
element is placed after every earlier element of strictly greater score and
before the first of equal-or-smaller score. -/
def insertDescRel (x : SearchResult) : List SearchResult → List SearchResult
  | [] => [x]
  | y :: ys => if x.relevance < y.relevance then y :: insertDescRel x ys else x :: y :: ys

/-- `results.sort(key=lambda x: x['relevance'], reverse=True)`: CPython's
sort is stable, and `reverse=True` keeps equal elements in their original
relative order, so the call is a stable descending sort by score. -/
def sortDescRel (l : List SearchResult) : List SearchResult :=
  l.foldr insertDescRel []

/-- `DocumentProcessor.search_documents`: score every chunk of every stored
document, keep the positive scores, sort stably by descending score and
return the first `top_k`. -/
def search_documents (dp : DocumentProcessor) (query : String) (top_k : Nat) :
    List SearchResult :=
  (sortDescRel (searchCandidates dp query)).take top_k

/-! ## Document listing (`DocumentProcessor.get_all_documents`) -/

/-- One entry of the list `get_all_documents` returns. -/
structure DocSummary where
  filename : String
  file_type : String
  chunks : Nat
  preview : String
deriving DecidableEq

/-- `DocumentProcessor.get_all_documents`: note the preview is
`doc['text'][:200] + "..."` — the ellipsis is appended unconditionally. -/
def get_all_documents (dp : DocumentProcessor) : List DocSummary :=
  dp.processed_documents.map (fun doc =>
    ⟨doc.filename, doc.file_type, doc.chunks, strTake doc.text 200 ++ "..."⟩)

/-! ## Provider gateway (`MentalHealthAgent`) -/

/-- The network boundary: an oracle answering, for a provider name and a user
query, either with the provider's response text or with the message of the
exception the client call would raise.  The system prompt, temperature and
max-token settings the source attaches to every call are fixed per agent and
are absorbed into the oracle. -/
def Oracle : Type := String → String → Except String String

/-- `MentalHealthAgent` state after `__init__`: which clients were created
and the `available_models` list, in the fixed construction order
openai, claude, grok. -/
structure Agent where
  openai_client : Bool
  claude_client : Bool
  grok_key : Bool
  available_models : List String
deriving DecidableEq

/-- The `available_models` list built by `MentalHealthAgent.__init__`:
one append per configured client, in the fixed order openai, claude, grok. -/
def agentModels (openai_key claude_key grok_key : Option String) : List String :=
  (if pyTruthy openai_key then ["openai"] else [])
    ++ (if pyTruthy claude_key then ["claude"] else [])
    ++ (if pyTruthy grok_key then ["grok"] else [])

/-- `MentalHealthAgent.__init__`: a client is configured iff its key is
truthy; with no truthy key the constructor raises
`ValueError("At least one AI model API key must be provided")`. -/
def mkAgent (openai_key claude_key grok_key : Option String) : Except String Agent :=
  if (agentModels openai_key claude_key grok_key).isEmpty then
    Except.error "At least one AI model API key must be provided"
  else
    Except.ok ⟨pyTruthy openai_key, pyTruthy claude_key, pyTruthy grok_key,
      agentModels openai_key claude_key grok_key⟩

/-- `MentalHealthAgent._query_openai`: the whole body is wrapped in
`try`/`except`, so a failure becomes the string `"OpenAI Error: ..."`. -/
def queryOpenai (o : Oracle) (uq : String) : String :=
  match o "openai" uq with
  | Except.ok t => t
  | Except.error e => "OpenAI Error: " ++ e

/-- `MentalHealthAgent._query_claude`, same failure policy. -/
def queryClaude (o : Oracle) (uq : String) : String :=
  match o "claude" uq with
  | Except.ok t => t
  | Except.error e => "Claude Error: " ++ e

/-- `MentalHealthAgent._query_grok`, same failure policy. -/
def queryGrok (o : Oracle) (uq : String) : String :=
  match o "grok" uq with
  | Except.ok t => t
  | Except.error e => "Grok Error: " ++ e

/-- The model-selection step of `MentalHealthAgent.query`
(`if model_preference and model_preference in self.available_models`):
a truthy preference that is in `available_models` is used, anything else
falls back to `available_models[0]`; `none` stands for indexing an empty
list (an `IndexError` in the source). -/
def selectedModel (a : Agent) (pref : Option String) : Option String :=
  match pref with
  | some p =>
    if !(p == "") && a.available_models.contains p then some p
    else a.available_models.head?
  | none => a.available_models.head?

/-- `MentalHealthAgent.query`: select a model, then route to the matching
provider method; the trailing `else` returns `"Error: No available models"`. -/
def query (a : Agent) (o : Oracle) (uq : String) (pref : Option String) :
    Option String :=
  match selectedModel a pref with
  | none => none
  | some model =>
    some (if model == "openai" then queryOpenai o uq
          else if model == "claude" then queryClaude o uq
          else if model == "grok" then queryGrok o uq
          else "Error: No available models")

/-- The dictionary entry the `query_all_models` loop writes for one model
name: display-name key and the provider method's result.  An unknown name
writes nothing (the `if`/`elif` chain has no `else`; the `except` branch of
the loop is unreachable because each `_query_*` method already catches every
exception). -/
def responseEntry (o : Oracle) (uq : String) (model : String) :
    List (String × String) :=
  if model == "openai" then [("OpenAI GPT", queryOpenai o uq)]
  else if model == "claude" then [("Claude", queryClaude o uq)]
  else if model == "grok" then [("Grok", queryGrok o uq)]
  else []

/-- The `responses` dictionary built by the first loop of
`query_all_models`, as an association list in insertion order
(`available_models` never repeats a name, so no key is ever overwritten). -/
def queryAllResponses (a : Agent) (o : Oracle) (uq : String) :
    List (String × String) :=
  (a.available_models.map (responseEntry o uq)).flatten

/-- The second loop of `query_all_models`: fold the labelled responses into
one markdown string under the fixed header. -/
def renderCombined (responses : List (String × String)) : String :=
  responses.foldl
    (fun combined pr => combined ++ "### " ++ pr.1 ++ "\n\n" ++ pr.2 ++ "\n\n---\n\n")
    "## 🤖 Multi-Model Analysis\n\n"

/-- `MentalHealthAgent.query_all_models`: despite its `Dict[str, str]`
annotation it returns the `combined` markdown string. -/
def queryAllModels (a : Agent) (o : Oracle) (uq : String) : String :=
  renderCombined (queryAllResponses a o uq)

/-- The per-model display name used as the `responses` key. -/
def displayName : String → String
  | "openai" => "OpenAI GPT"
  | "claude" => "Claude"
  | "grok" => "Grok"
  | m => m

/-! ## Properties of the stable descending sort -/

theorem sortDescRel_cons (y : SearchResult) (ys : List SearchResult) :
    sortDescRel (y :: ys) = insertDescRel y (sortDescRel ys) := rfl

theorem mem_insertDescRel {x a : SearchResult} {l : List SearchResult} :
    a ∈ insertDescRel x l ↔ a = x ∨ a ∈ l := by
  induction l with
  | nil => simp [insertDescRel]
  | cons y ys ih =>
    rw [insertDescRel]
    by_cases h : x.relevance < y.relevance
    · rw [if_pos h]
      simp only [List.mem_cons, ih]
      tauto
    · rw [if_neg h]
      simp only [List.mem_cons]

theorem mem_sortDescRel {a : SearchResult} {l : List SearchResult} :
    a ∈ sortDescRel l ↔ a ∈ l := by
  induction l with
  | nil => simp [sortDescRel]
  | cons y ys ih =>
    rw [sortDescRel_cons, mem_insertDescRel, ih, List.mem_cons]

theorem sorted_insertDescRel (x : SearchResult) (l : List SearchResult)
    (h : l.Pairwise (fun p q => q.relevance ≤ p.relevance)) :
    (insertDescRel x l).Pairwise (fun p q => q.relevance ≤ p.relevance) := by
  induction l with
  | nil => simp [insertDescRel]
  | cons y ys ih =>
    rcases List.pairwise_cons.mp h with ⟨hy, hys⟩
    rw [insertDescRel]
    by_cases hxy : x.relevance < y.relevance
    · rw [if_pos hxy]
      refine List.pairwise_cons.mpr ⟨?_, ih hys⟩
      intro z hz
      rcases mem_insertDescRel.mp hz with rfl | hz'
      · omega
      · exact hy z hz'
    · rw [if_neg hxy]
      refine List.pairwise_cons.mpr ⟨?_, h⟩
      intro z hz
      rcases List.mem_cons.mp hz with rfl | hz'
      · omega
      · have := hy z hz'
        omega

theorem sorted_sortDescRel (l : List SearchResult) :
    (sortDescRel l).Pairwise (fun p q => q.relevance ≤ p.relevance) := by
  induction l with
  | nil => simp [sortDescRel]
  | cons y ys ih =>
    rw [sortDescRel_cons]
    exact sorted_insertDescRel y _ ih

theorem filter_insertDescRel (x : SearchResult) (l : List SearchResult) (k : Nat) :
    (insertDescRel x l).filter (fun r => r.relevance == k)
      = if x.relevance == k then x :: l.filter (fun r => r.relevance == k)
        else l.filter (fun r => r.relevance == k) := by
  induction l with
  | nil =>
    rw [insertDescRel]
    by_cases hxk : x.relevance == k
    · rw [if_pos hxk]
      simp [List.filter, hxk]
    · rw [if_neg hxk]
      simp [List.filter, hxk]
  | cons y ys ih =>
    rw [insertDescRel]
    by_cases hxy : x.relevance < y.relevance
    · rw [if_pos hxy, List.filter_cons, ih]
      by_cases hxk : x.relevance == k
      · have hk : x.relevance = k := by simpa using hxk
        have hyk : ¬((y.relevance == k) = true) := by
          simp only [beq_iff_eq]
          omega
        rw [if_neg hyk, if_pos hxk, if_pos hxk, List.filter_cons, if_neg hyk]
      · rw [if_neg hxk, if_neg hxk, List.filter_cons]
    · rw [if_neg hxy, List.filter_cons]

theorem filter_sortDescRel (l : List SearchResult) (k : Nat) :
    (sortDescRel l).filter (fun r => r.relevance == k)
      = l.filter (fun r => r.relevance == k) := by
  induction l with
  | nil => rfl
  | cons y ys ih =>
    rw [sortDescRel_cons, filter_insertDescRel, ih, List.filter_cons]

/-! ## Claim C2: chunker behaviour -/

/-- Claim C2, amended: for every text and every
`chunk_overlap < chunk_size`, the chunker emits exactly the slices
`text[k·step : k·step + chunk_size]` for `k < ⌈len/step⌉`, where
`step = chunk_size - chunk_overlap` — by the final equivalence these `k` are
exactly the offsets kept by the loop condition `offset < len(text)`; the
empty text yields the empty sequence; and the number of chunks is
`⌈len/step⌉`.  (The claim's count formula
`⌈max(0, len - overlap)/step⌉` is wrong; see the counterexample.) -/
theorem split_into_chunks_spec (cs co : Nat) (t : String) (h : co < cs) :
    splitIntoChunks cs co t
      = (List.range (cdiv t.toList.length (cs - co))).map
          (fun k => String.mk ((t.toList.drop (k * (cs - co))).take cs))
    ∧ splitIntoChunks cs co "" = []
    ∧ (splitIntoChunks cs co t).length = cdiv t.toList.length (cs - co)
    ∧ ∀ k, k < cdiv t.toList.length (cs - co) ↔ k * (cs - co) < t.toList.length := by
  have hstep : 0 < cs - co := by omega
  have h1 : ∀ s : String, splitIntoChunks cs co s
      = (List.range (cdiv s.toList.length (cs - co))).map
          (fun k => String.mk ((s.toList.drop (k * (cs - co))).take cs)) := by
    intro s
    unfold splitIntoChunks
    rw [splitIntoChunksL_eq cs co s.toList h, List.map_map]
    rfl
  refine ⟨h1 t, ?_, ?_, fun k => cdiv_count_iff _ _ k hstep⟩
  · rw [h1 ""]
    simp [cdiv_zero]
  · rw [h1 t]
    simp

/-- Claim C2, counterexample to the chunk-count formula: splitting `"abc"`
with `chunk_size = 2`, `overlap = 1` emits the 3 chunks
`["ab", "bc", "c"]` (offsets 0, 1, 2), but the claimed formula
`⌈max(0, len - overlap)/(chunk_size - overlap)⌉ = ⌈2/1⌉` gives 2. -/
theorem split_into_chunks_count_cx :
    splitIntoChunks 2 1 "abc" = ["ab", "bc", "c"]
    ∧ (splitIntoChunks 2 1 "abc").length = 3
    ∧ cdiv (max 0 ("abc".toList.length - 1)) (2 - 1) = 2
    ∧ (3 : Nat) ≠ 2 := by
  refine ⟨by decide, by decide, by decide, by decide⟩

/-- Witness for `split_into_chunks_spec` at `chunk_size = 2`, `overlap = 1`,
text `"abc"`. -/
theorem split_into_chunks_spec_witness :
    (splitIntoChunks 2 1 "abc").length = cdiv "abc".toList.length (2 - 1) :=
  (split_into_chunks_spec 2 1 "abc" (by decide)).2.2.1

/-! ## Claim C3: the 2500-character ingestion scenario -/

/-- Claim C3, amended: ingesting a 2500-code-point text document into a fresh
default processor (`chunk_size = 1000`, `overlap = 200`) succeeds, stores one
document with exactly 4 chunks taken at offsets 0, 800, 1600, 2400, and the
chunk lengths are `[1000, 1000, 900, 100]` — not `[1000, 1000, 1000, ≈300]`
as claimed: the slice at offset 1600 is clipped at the end of the text. -/
theorem ingest_2500_scenario (t : String) (h : t.toList.length = 2500) :
    processFile defaultProcessor ⟨"case.txt", Except.error "", Except.error "", Except.ok t⟩
      = (ProcessResult.ok "case.txt" 4 (strTake t 500 ++ "..."),
         ⟨1000, 200, [⟨"case.txt", "txt", t, 4, splitIntoChunks 1000 200 t⟩]⟩)
    ∧ splitIntoChunks 1000 200 t
        = [String.mk (t.toList.take 1000),
           String.mk ((t.toList.drop 800).take 1000),
           String.mk ((t.toList.drop 1600).take 1000),
           String.mk ((t.toList.drop 2400).take 1000)]
    ∧ (splitIntoChunks 1000 200 t).map (fun c => c.toList.length)
        = [1000, 1000, 900, 100] := by
  have hchunks : splitIntoChunks 1000 200 t
      = [String.mk (t.toList.take 1000),
         String.mk ((t.toList.drop 800).take 1000),
         String.mk ((t.toList.drop 1600).take 1000),
         String.mk ((t.toList.drop 2400).take 1000)] := by
    have h1 := (split_into_chunks_spec 1000 200 t (by norm_num)).1
    rw [h1, h]
    have h4 : cdiv 2500 (1000 - 200) = 4 := by decide
    rw [h4]
    have hr : List.range 4 = [0, 1, 2, 3] := by decide
    rw [hr]
    simp
  have hlens : (splitIntoChunks 1000 200 t).map (fun c => c.toList.length)
      = [1000, 1000, 900, 100] := by
    rw [hchunks]
    simp only [List.map_cons, List.map_nil]
    have hmk : ∀ l : List Char, (String.mk l).toList = l := fun _ => rfl
    have hd : t.data.length = 2500 := h
    simp only [hmk, List.length_take, List.length_drop, List.cons.injEq, and_true]
    omega
  have hlen4 : (splitIntoChunks 1000 200 t).length = 4 := by
    have := congrArg List.length hlens
    simpa using this
  refine ⟨?_, hchunks, hlens⟩
  have hext : fileExtension "case.txt" = "txt" := by decide
  have h' : t.length = 2500 := h
  show processFile ⟨1000, 200, []⟩ _ = _
  unfold processFile
  rw [hext]
  norm_num
  rw [if_neg (by decide : ¬("txt" : String) = "pdf"),
    if_neg (by decide : ¬("txt" : String) = "docx")]
  dsimp only
  rw [hlen4]
  have hbig : 500 < t.length := by omega
  rw [if_pos hbig]

/-- A concrete 2500-code-point text. -/
def t2500 : String := String.mk (List.replicate 2500 'a')

/-- Claim C3, counterexample: on a concrete 2500-character text with
`chunk_size = 1000`, `overlap = 200` the third chunk has length 900 (the
claim says 1000) and the last chunk has length 100, which is not around 300
(not within 200..400). -/
theorem ingest_2500_scenario_cx :
    (splitIntoChunks 1000 200 t2500).map (fun c => c.toList.length)
      = [1000, 1000, 900, 100]
    ∧ (900 : Nat) ≠ 1000
    ∧ ¬(200 ≤ (100 : Nat) ∧ (100 : Nat) ≤ 400) := by
  refine ⟨?_, by decide, by decide⟩
  have hlen : t2500.toList.length = 2500 := by
    show (List.replicate 2500 'a').length = 2500
    exact List.length_replicate 2500 'a'
  unfold splitIntoChunks
  rw [splitIntoChunksL_eq 1000 200 _ (by norm_num), hlen]
  rw [show cdiv 2500 (1000 - 200) = 4 from by decide,
    show List.range 4 = [0, 1, 2, 3] from by decide]
  simp only [List.map_cons, List.map_nil, List.map_map, Function.comp_apply]
  have hmk : ∀ l : List Char, (String.mk l).toList = l := fun _ => rfl
  simp only [hmk, List.length_take, List.length_drop, List.cons.injEq, and_true]
  have hd : t2500.data.length = 2500 := hlen
  omega

/-- Witness for `ingest_2500_scenario` at the concrete text `t2500`. -/
theorem ingest_2500_scenario_witness :
    processFile defaultProcessor ⟨"case.txt", Except.error "", Except.error "", Except.ok t2500⟩
      = (ProcessResult.ok "case.txt" 4 (strTake t2500 500 ++ "..."),
         ⟨1000, 200, [⟨"case.txt", "txt", t2500, 4, splitIntoChunks 1000 200 t2500⟩]⟩) :=
  (ingest_2500_scenario t2500
    (show (List.replicate 2500 'a').length = 2500 from List.length_replicate 2500 'a')).1

/-! ## Claims C4 and C5: retriever behaviour -/

theorem mem_searchCandidates_pos (dp : DocumentProcessor) (q : String)
    {r : SearchResult} (h : r ∈ searchCandidates dp q) : 0 < r.relevance := by
  rcases List.mem_flatten.mp h with ⟨l, hl, hrl⟩
  rcases List.mem_map.mp hl with ⟨doc, _, rfl⟩
  simp only [docCandidates] at hrl
  rcases List.mem_filterMap.mp hrl with ⟨p, _, hp⟩
  split at hp
  · rename_i hpos
    injection hp with hr
    subst hr
    exact hpos
  · exact absurd hp (by simp)

theorem searchCandidates_empty_query (dp : DocumentProcessor) :
    searchCandidates dp "" = [] := by
  unfold searchCandidates
  rw [List.flatten_eq_nil_iff]
  intro l hl
  rcases List.mem_map.mp hl with ⟨doc, _, rfl⟩
  unfold docCandidates
  rw [List.filterMap_eq_nil_iff]
  intro p _
  have hscore : relevance_score (strToLower "") p.2 = 0 := rfl
  simp [hscore]

/-- Claim C4: `search_documents` never returns a chunk whose relevance score
is 0 (every returned score is positive), and the empty query — which splits
into no terms, so every chunk scores 0 — returns the empty list. -/
theorem search_documents_no_zero (dp : DocumentProcessor) (q : String) (top_k : Nat) :
    (∀ r ∈ search_documents dp q top_k, r.relevance ≠ 0)
    ∧ (∀ k, search_documents dp "" k = []) := by
  constructor
  · intro r hr
    have h1 : r ∈ sortDescRel (searchCandidates dp q) := List.take_subset _ _ hr
    have h2 : r ∈ searchCandidates dp q := mem_sortDescRel.mp h1
    have := mem_searchCandidates_pos dp q h2
    omega
  · intro k
    unfold search_documents
    rw [searchCandidates_empty_query]
    simp [sortDescRel]

/-- Claim C5: for `0 < top_k` the search result has length at most `top_k`
and is sorted by relevance descending; for every score value the results
carrying that score are an initial segment of the score-positive candidates
in their generation order — documents in insertion order, chunks in index
order (`searchCandidates`) — which is exactly the stable tie-breaking the
claim describes. -/
theorem search_documents_sorted (dp : DocumentProcessor) (q : String) (top_k : Nat)
    (_h : 0 < top_k) :
    (search_documents dp q top_k).length ≤ top_k
    ∧ (search_documents dp q top_k).Pairwise (fun x y => y.relevance ≤ x.relevance)
    ∧ ∀ s : Nat, ∃ rest,
        (searchCandidates dp q).filter (fun r => r.relevance == s)
          = (search_documents dp q top_k).filter (fun r => r.relevance == s) ++ rest := by
  refine ⟨?_, ?_, ?_⟩
  · unfold search_documents
    rw [List.length_take]
    exact min_le_left _ _
  · unfold search_documents
    exact List.Pairwise.sublist (List.take_sublist _ _) (sorted_sortDescRel _)
  · intro s
    refine ⟨((sortDescRel (searchCandidates dp q)).drop top_k).filter
      (fun r => r.relevance == s), ?_⟩
    rw [← filter_sortDescRel (searchCandidates dp q) s]
    unfold search_documents
    conv_lhs => rw [← List.take_append_drop top_k (sortDescRel (searchCandidates dp q))]
    rw [List.filter_append]

/-- A concrete two-document store: only the first document mentions
"anxiety". -/
def dpDocs : DocumentProcessor :=
  ⟨1000, 200,
   [⟨"anxiety.txt", "txt", "anxiety in children", 1, ["anxiety in children"]⟩,
    ⟨"notes.txt", "txt", "sleep hygiene notes", 1, ["sleep hygiene notes"]⟩]⟩

/-- Witness for `search_documents_no_zero` on the concrete store `dpDocs`. -/
theorem search_documents_no_zero_witness :
    (⟨"anxiety.txt", 0, "anxiety in children", 1⟩ : SearchResult).relevance ≠ 0
    ∧ search_documents dpDocs "" 5 = [] :=
  ⟨(search_documents_no_zero dpDocs "anxiety" 3).1 _ (by decide),
   (search_documents_no_zero dpDocs "anxiety" 3).2 5⟩

/-- Witness for `search_documents_sorted` on the concrete store `dpDocs`. -/
theorem search_documents_sorted_witness :
    (search_documents dpDocs "anxiety" 2).length ≤ 2
    ∧ (search_documents dpDocs "anxiety" 2).Pairwise (fun x y => y.relevance ≤ x.relevance)
    ∧ ∀ s : Nat, ∃ rest,
        (searchCandidates dpDocs "anxiety").filter (fun r => r.relevance == s)
          = (search_documents dpDocs "anxiety" 2).filter (fun r => r.relevance == s) ++ rest :=
  search_documents_sorted dpDocs "anxiety" 2 (by decide)

/-! ## Claim C8: document listing previews -/

/-- Claim C8, amended: each entry of `get_all_documents` carries the stored
document's filename, file type and chunk count, and a preview equal to the
first 200 code points of the text with `"..."` appended unconditionally —
also when the text has at most 200 code points and nothing was truncated
(the claim's "ellipsis only if truncated" fails; see the counterexample). -/
theorem get_all_documents_spec (dp : DocumentProcessor) (i : Nat) (d : DocInfo)
    (h : dp.processed_documents[i]? = some d) :
    (get_all_documents dp)[i]?
      = some ⟨d.filename, d.file_type, d.chunks, strTake d.text 200 ++ "..."⟩
    ∧ (d.text.toList.length ≤ 200 → strTake d.text 200 ++ "..." = d.text ++ "...") := by
  constructor
  · unfold get_all_documents
    rw [List.getElem?_map, h]
    rfl
  · intro hle
    have ht : d.text.toList.take 200 = d.text.toList := List.take_of_length_le hle
    unfold strTake
    rw [ht]
    rfl

/-- A store holding one short document (2 characters, far below 200). -/
def dpShort : DocumentProcessor := ⟨1000, 200, [⟨"a.txt", "txt", "hi", 1, ["hi"]⟩]⟩

/-- Claim C8, counterexample: for a stored text of 2 characters the preview
is `"hi..."` — the ellipsis is appended even though nothing was truncated,
whereas the claim requires plain `"hi"`. -/
theorem get_all_documents_cx :
    get_all_documents dpShort = [⟨"a.txt", "txt", 1, "hi..."⟩]
    ∧ ("hi" : String).toList.length ≤ 200
    ∧ "hi..." ≠ "hi" := by
  refine ⟨by decide, by decide, by decide⟩

/-- Witness for `get_all_documents_spec` on the one-document store. -/
theorem get_all_documents_spec_witness :
    (get_all_documents dpShort)[0]?
      = some ⟨"a.txt", "txt", 1, strTake "hi" 200 ++ "..."⟩
    ∧ (("hi" : String).toList.length ≤ 200 → strTake "hi" 200 ++ "..." = "hi" ++ "...") :=
  get_all_documents_spec dpShort 0 ⟨"a.txt", "txt", "hi", 1, ["hi"]⟩ (by decide)

/-! ## Claim C9: ingestion error handling -/

/-- Claim C9: ingesting a file whose extension is unsupported returns a
failure result naming the offending extension; extractor failures are
returned as structured error results rather than raised (the embedding is a
total function into `ProcessResult`); and every failure leaves the stored
document list unchanged. -/
theorem process_file_errors (dp : DocumentProcessor) (f : UploadedFile) :
    (fileExtension f.name ∉ (["pdf", "docx", "txt", "md"] : List String) →
      processFile dp f
        = (ProcessResult.err ("Unsupported file type: " ++ fileExtension f.name), dp))
    ∧ (∀ e, fileExtension f.name = "pdf" → f.pdfText = Except.error e →
        processFile dp f = (ProcessResult.err e, dp))
    ∧ (∀ e, fileExtension f.name = "docx" → f.docxText = Except.error e →
        processFile dp f = (ProcessResult.err e, dp))
    ∧ (∀ e, (fileExtension f.name = "txt" ∨ fileExtension f.name = "md") →
        f.rawText = Except.error e →
        processFile dp f = (ProcessResult.err e, dp))
    ∧ (∀ msg, (processFile dp f).1 = ProcessResult.err msg →
        (processFile dp f).2 = dp) := by
  refine ⟨?_, ?_, ?_, ?_, ?_⟩
  · intro h
    simp only [List.mem_cons, List.not_mem_nil, or_false, not_or] at h
    simp [processFile, h.1, h.2.1, h.2.2]
  · intro e hext he
    simp [processFile, hext, he]
  · intro e hext he
    simp [processFile, hext, he]
  · intro e hext he
    rcases hext with hext | hext <;> simp [processFile, hext, he]
  · intro msg
    unfold processFile
    dsimp only
    split
    · intro _; rfl
    · intro _; rfl
    · intro hcontr
      simp at hcontr

/-- Witness for `process_file_errors`: a `.exe` upload is rejected with a
failure naming the extension and the store stays empty. -/
theorem process_file_errors_witness :
    processFile defaultProcessor ⟨"virus.exe", Except.error "", Except.error "", Except.error ""⟩
      = (ProcessResult.err ("Unsupported file type: " ++ fileExtension "virus.exe"),
         defaultProcessor) :=
  (process_file_errors defaultProcessor
    ⟨"virus.exe", Except.error "", Except.error "", Except.error ""⟩).1 (by decide)

/-! ## Agent construction facts -/

theorem mkAgent_ok_models (ok ck gk : Option String) (a : Agent)
    (h : mkAgent ok ck gk = Except.ok a) :
    a.available_models = agentModels ok ck gk ∧ a.available_models ≠ [] := by
  unfold mkAgent at h
  split at h
  · exact absurd h (by simp)
  · rename_i hne
    injection h with h'
    subst h'
    refine ⟨rfl, ?_⟩
    intro hnil
    have hmodels : agentModels ok ck gk = [] := hnil
    rw [hmodels] at hne
    simp at hne

theorem mkAgent_ok_sub (ok ck gk : Option String) (a : Agent)
    (h : mkAgent ok ck gk = Except.ok a) :
    (∀ m ∈ a.available_models, m = "openai" ∨ m = "claude" ∨ m = "grok")
    ∧ a.available_models ≠ [] ∧ a.available_models.Nodup := by
  obtain ⟨hav, hne⟩ := mkAgent_ok_models ok ck gk a h
  refine ⟨?_, hne, ?_⟩
  · intro m hm
    rw [hav] at hm
    unfold agentModels at hm
    simp only [List.mem_append] at hm
    rcases hm with (hm | hm) | hm
    · left
      revert hm
      split <;> simp_all
    · right; left
      revert hm
      split <;> simp_all
    · right; right
      revert hm
      split <;> simp_all
  · rw [hav]
    unfold agentModels
    cases hok : pyTruthy ok <;> cases hck : pyTruthy ck <;> cases hgk : pyTruthy gk <;>
      simp

theorem selectedModel_mem (a : Agent)
    (hsub : ∀ m ∈ a.available_models, m = "openai" ∨ m = "claude" ∨ m = "grok")
    (hne : a.available_models ≠ []) (pref : Option String) :
    ∃ m, selectedModel a pref = some m
      ∧ (m = "openai" ∨ m = "claude" ∨ m = "grok") := by
  obtain ⟨m0, rest, hcons⟩ := List.exists_cons_of_ne_nil hne
  have hm0 : m0 ∈ a.available_models := by
    rw [hcons]
    exact List.mem_cons_self _ _
  have hhead : a.available_models.head? = some m0 := by
    rw [hcons]
    rfl
  cases pref with
  | none => exact ⟨m0, by rw [selectedModel, hhead], hsub m0 hm0⟩
  | some p =>
    by_cases hc : (!(p == "") && a.available_models.contains p) = true
    · refine ⟨p, ?_, ?_⟩
      · rw [selectedModel, if_pos hc]
      · have hp : p ∈ a.available_models := by
          have hcont := ((Bool.and_eq_true _ _).mp hc).2
          rcases List.contains_iff_exists_mem_beq.mp hcont with ⟨p', hp', hbeq⟩
          rw [show p = p' from by simpa using hbeq]
          exact hp'
        exact hsub p hp
    · exact ⟨m0, by rw [selectedModel, if_neg hc, hhead], hsub m0 hm0⟩

theorem query_eq_of_selected (a : Agent) (o : Oracle) (uq : String)
    (pref : Option String) (m : String) (h : selectedModel a pref = some m) :
    query a o uq pref
      = some (if m == "openai" then queryOpenai o uq
              else if m == "claude" then queryClaude o uq
              else if m == "grok" then queryGrok o uq
              else "Error: No available models") := by
  unfold query
  rw [h]

/-! ## Claim C10: the dead dispatch branch -/

/-- Claim C10: for every successfully constructed agent and every
preference, model selection yields one of the three provider names and
`query` dispatches to that provider's method, so the final branch returning
`"Error: No available models"` is unreachable. -/
theorem query_dispatch_total (ok ck gk : Option String) (a : Agent)
    (h : mkAgent ok ck gk = Except.ok a) (pref : Option String) :
    ∃ m, selectedModel a pref = some m
      ∧ ((m = "openai" ∧ ∀ o uq, query a o uq pref = some (queryOpenai o uq))
        ∨ (m = "claude" ∧ ∀ o uq, query a o uq pref = some (queryClaude o uq))
        ∨ (m = "grok" ∧ ∀ o uq, query a o uq pref = some (queryGrok o uq))) := by
  obtain ⟨hsub, hne, _⟩ := mkAgent_ok_sub ok ck gk a h
  obtain ⟨m, hsel, htri⟩ := selectedModel_mem a hsub hne pref
  refine ⟨m, hsel, ?_⟩
  rcases htri with rfl | rfl | rfl
  · exact Or.inl ⟨rfl, fun o uq => by
      rw [query_eq_of_selected a o uq pref _ hsel]
      simp⟩
  · exact Or.inr (Or.inl ⟨rfl, fun o uq => by
      rw [query_eq_of_selected a o uq pref _ hsel]
      simp⟩)
  · exact Or.inr (Or.inr ⟨rfl, fun o uq => by
      rw [query_eq_of_selected a o uq pref _ hsel]
      simp⟩)

/-- A one-provider agent, the value `mkAgent (some "k") none none` returns. -/
def agentOpenAI : Agent := ⟨true, false, false, ["openai"]⟩

/-- An oracle whose every provider answers `"Hello"`. -/
def oracleHello : Oracle := fun _ _ => Except.ok "Hello"

/-- Witness for `query_dispatch_total` on the one-provider agent with the
unknown preference `"provider-Z"`. -/
theorem query_dispatch_total_witness :
    ∃ m, selectedModel agentOpenAI (some "provider-Z") = some m
      ∧ ((m = "openai" ∧ ∀ o uq,
            query agentOpenAI o uq (some "provider-Z") = some (queryOpenai o uq))
        ∨ (m = "claude" ∧ ∀ o uq,
            query agentOpenAI o uq (some "provider-Z") = some (queryClaude o uq))
        ∨ (m = "grok" ∧ ∀ o uq,
            query agentOpenAI o uq (some "provider-Z") = some (queryGrok o uq))) :=
  query_dispatch_total (some "k") none none agentOpenAI (by rfl) (some "provider-Z")

/-! ## Claim C7: unknown preferred provider falls back silently -/

/-- Claim C7: a preferred provider name that is not among the available
models is silently ignored — selection falls back to `available_models[0]`,
the query behaves exactly as with no preference at all, and it does not
fail. -/
theorem query_unknown_pref (ok ck gk : Option String) (a : Agent)
    (h : mkAgent ok ck gk = Except.ok a) (p : String)
    (hp : p ∉ a.available_models) :
    selectedModel a (some p) = a.available_models.head?
    ∧ (∀ o uq, query a o uq (some p) = query a o uq none)
    ∧ (∀ o uq, (query a o uq (some p)).isSome = true) := by
  obtain ⟨_, hne, _⟩ := mkAgent_ok_sub ok ck gk a h
  have hcont : a.available_models.contains p = false := by
    cases hc : a.available_models.contains p
    · rfl
    · exfalso
      apply hp
      rcases List.contains_iff_exists_mem_beq.mp hc with ⟨p', hp', hbeq⟩
      rw [show p = p' from by simpa using hbeq]
      exact hp'
  have hsel : selectedModel a (some p) = a.available_models.head? := by
    have hfalse : (!(p == "") && a.available_models.contains p) = false := by
      rw [hcont, Bool.and_false]
    rw [selectedModel, hfalse]
    simp
  obtain ⟨m0, rest, hcons⟩ := List.exists_cons_of_ne_nil hne
  have hhead : a.available_models.head? = some m0 := by
    rw [hcons]
    rfl
  refine ⟨hsel, ?_, ?_⟩
  · intro o uq
    unfold query
    rw [hsel, show selectedModel a none = a.available_models.head? from rfl]
  · intro o uq
    unfold query
    rw [hsel, hhead]
    rfl

/-- Witness for `query_unknown_pref` at the one-provider agent and the
unknown name `"provider-Z"`. -/
theorem query_unknown_pref_witness :
    selectedModel agentOpenAI (some "provider-Z") = agentOpenAI.available_models.head?
    ∧ (∀ o uq, query agentOpenAI o uq (some "provider-Z") = query agentOpenAI o uq none)
    ∧ (∀ o uq, (query agentOpenAI o uq (some "provider-Z")).isSome = true) :=
  query_unknown_pref (some "k") none none agentOpenAI (by rfl) "provider-Z" (by decide)

/-! ## Claim C6: construction requires a credential; a single credential
fixes the default provider -/

/-- Claim C6: constructing the agent with all credentials absent raises
`ValueError("At least one AI model API key must be provided")`; with exactly
one truthy credential construction succeeds, that provider is the only
available model, and a query with no preference dispatches to exactly that
provider's method. -/
theorem mkAgent_single_key (k : String) (hk : pyTruthy (some k) = true) :
    mkAgent none none none
      = Except.error "At least one AI model API key must be provided"
    ∧ (∃ a, mkAgent (some k) none none = Except.ok a
        ∧ a.available_models = ["openai"]
        ∧ ∀ o uq, query a o uq none = some (queryOpenai o uq))
    ∧ (∃ a, mkAgent none (some k) none = Except.ok a
        ∧ a.available_models = ["claude"]
        ∧ ∀ o uq, query a o uq none = some (queryClaude o uq))
    ∧ (∃ a, mkAgent none none (some k) = Except.ok a
        ∧ a.available_models = ["grok"]
        ∧ ∀ o uq, query a o uq none = some (queryGrok o uq)) := by
  refine ⟨rfl, ?_, ?_, ?_⟩
  · refine ⟨⟨true, false, false, ["openai"]⟩, ?_, rfl, fun o uq => rfl⟩
    unfold mkAgent agentModels
    rw [hk]
    rfl
  · refine ⟨⟨false, true, false, ["claude"]⟩, ?_, rfl, fun o uq => rfl⟩
    unfold mkAgent agentModels
    rw [hk]
    rfl
  · refine ⟨⟨false, false, true, ["grok"]⟩, ?_, rfl, fun o uq => rfl⟩
    unfold mkAgent agentModels
    rw [hk]
    rfl

/-- Witness for `mkAgent_single_key` at the concrete key `"key"`. -/
theorem mkAgent_single_key_witness :
    mkAgent none none none
      = Except.error "At least one AI model API key must be provided"
    ∧ (∃ a, mkAgent (some "key") none none = Except.ok a
        ∧ a.available_models = ["openai"]
        ∧ ∀ o uq, query a o uq none = some (queryOpenai o uq))
    ∧ (∃ a, mkAgent none (some "key") none = Except.ok a
        ∧ a.available_models = ["claude"]
        ∧ ∀ o uq, query a o uq none = some (queryClaude o uq))
    ∧ (∃ a, mkAgent none none (some "key") = Except.ok a
        ∧ a.available_models = ["grok"]
        ∧ ∀ o uq, query a o uq none = some (queryGrok o uq)) :=
  mkAgent_single_key "key" (by decide)

/-! ## Claim C1: `query_all_models` -/

theorem responses_keys_gen (o : Oracle) (uq : String) : ∀ ms : List String,
    (∀ m ∈ ms, m = "openai" ∨ m = "claude" ∨ m = "grok") →
    ((ms.map (responseEntry o uq)).flatten).map Prod.fst = ms.map displayName := by
  intro ms
  induction ms with
  | nil => intro _; rfl
  | cons m ms ih =>
    intro hsub
    simp only [List.map_cons, List.flatten_cons, List.map_append]
    rw [ih (fun x hx => hsub x (List.mem_cons_of_mem _ hx))]
    rcases hsub m (List.mem_cons_self _ _) with rfl | rfl | rfl <;> rfl

theorem mem_queryAllResponses (a : Agent) (o : Oracle) (uq : String)
    (hsub : ∀ m ∈ a.available_models, m = "openai" ∨ m = "claude" ∨ m = "grok")
    {pr : String × String} (hpr : pr ∈ queryAllResponses a o uq) :
    (pr = ("OpenAI GPT", queryOpenai o uq) ∧ "openai" ∈ a.available_models)
    ∨ (pr = ("Claude", queryClaude o uq) ∧ "claude" ∈ a.available_models)
    ∨ (pr = ("Grok", queryGrok o uq) ∧ "grok" ∈ a.available_models) := by
  rcases List.mem_flatten.mp hpr with ⟨l, hl, hprl⟩
  rcases List.mem_map.mp hl with ⟨m, hm, rfl⟩
  rcases hsub m hm with rfl | rfl | rfl
  · left
    exact ⟨by simpa [responseEntry] using hprl, hm⟩
  · right; left
    exact ⟨by simpa [responseEntry] using hprl, hm⟩
  · right; right
    exact ⟨by simpa [responseEntry] using hprl, hm⟩

/-- Claim C1, amended: `query_all_models` never raises (it is a total
function here; every `_query_*` method catches its own exceptions); the
`responses` dictionary it builds has exactly one entry per configured
provider, in configuration order and with no duplicate keys, and each
entry's value is either the provider's real response or
`"<Provider> Error: <message>"`.  However the function's return value is the
markdown rendering of those labelled responses — one combined string, not
the mapping itself, despite the source's `Dict[str, str]` annotation and
docstring (see the counterexample). -/
theorem query_all_models_spec (ok ck gk : Option String) (a : Agent)
    (h : mkAgent ok ck gk = Except.ok a) (o : Oracle) (uq : String) :
    (queryAllResponses a o uq).map Prod.fst = a.available_models.map displayName
    ∧ ((queryAllResponses a o uq).map Prod.fst).Nodup
    ∧ (∀ pr ∈ queryAllResponses a o uq,
        (pr.1 = "OpenAI GPT" ∧ "openai" ∈ a.available_models
          ∧ ((∃ t, o "openai" uq = Except.ok t ∧ pr.2 = t)
            ∨ (∃ e, o "openai" uq = Except.error e ∧ pr.2 = "OpenAI Error: " ++ e)))
        ∨ (pr.1 = "Claude" ∧ "claude" ∈ a.available_models
          ∧ ((∃ t, o "claude" uq = Except.ok t ∧ pr.2 = t)
            ∨ (∃ e, o "claude" uq = Except.error e ∧ pr.2 = "Claude Error: " ++ e)))
        ∨ (pr.1 = "Grok" ∧ "grok" ∈ a.available_models
          ∧ ((∃ t, o "grok" uq = Except.ok t ∧ pr.2 = t)
            ∨ (∃ e, o "grok" uq = Except.error e ∧ pr.2 = "Grok Error: " ++ e))))
    ∧ queryAllModels a o uq = renderCombined (queryAllResponses a o uq) := by
  obtain ⟨hsub, _, hnodup⟩ := mkAgent_ok_sub ok ck gk a h
  have hkeys : (queryAllResponses a o uq).map Prod.fst
      = a.available_models.map displayName :=
    responses_keys_gen o uq a.available_models hsub
  refine ⟨hkeys, ?_, ?_, rfl⟩
  · rw [hkeys]
    refine List.Nodup.map_on ?_ hnodup
    intro x hx y hy hxy
    rcases hsub x hx with rfl | rfl | rfl <;> rcases hsub y hy with rfl | rfl | rfl <;>
      first
        | rfl
        | exact absurd hxy (by decide)
  · intro pr hpr
    rcases mem_queryAllResponses a o uq hsub hpr with ⟨heq, hmem⟩ | ⟨heq, hmem⟩ | ⟨heq, hmem⟩ <;>
      subst heq
    · left
      refine ⟨rfl, hmem, ?_⟩
      show (∃ t, o "openai" uq = Except.ok t ∧ queryOpenai o uq = t) ∨ _
      unfold queryOpenai
      cases ho : o "openai" uq with
      | ok t => exact Or.inl ⟨t, rfl, rfl⟩
      | error e => exact Or.inr ⟨e, rfl, rfl⟩
    · right; left
      refine ⟨rfl, hmem, ?_⟩
      show (∃ t, o "claude" uq = Except.ok t ∧ queryClaude o uq = t) ∨ _
      unfold queryClaude
      cases ho : o "claude" uq with
      | ok t => exact Or.inl ⟨t, rfl, rfl⟩
      | error e => exact Or.inr ⟨e, rfl, rfl⟩
    · right; right
      refine ⟨rfl, hmem, ?_⟩
      show (∃ t, o "grok" uq = Except.ok t ∧ queryGrok o uq = t) ∨ _
      unfold queryGrok
      cases ho : o "grok" uq with
      | ok t => exact Or.inl ⟨t, rfl, rfl⟩
      | error e => exact Or.inr ⟨e, rfl, rfl⟩

/-- Claim C1, counterexample: with one configured provider whose real
response is `"Hello"`, `query_all_models` does return a value in which the
per-provider entry is the real response (third conjunct, the internal
dictionary), but what it returns is the markdown-formatted combined string —
a single string, not the mapping the claim (and the source's own docstring
and `Dict[str, str]` annotation) describe. -/
theorem query_all_models_cx :
    mkAgent (some "k") none none = Except.ok agentOpenAI
    ∧ queryAllModels agentOpenAI oracleHello "hi"
        = "## 🤖 Multi-Model Analysis\n\n### OpenAI GPT\n\nHello\n\n---\n\n"
    ∧ queryAllResponses agentOpenAI oracleHello "hi" = [("OpenAI GPT", "Hello")]
    ∧ queryAllModels agentOpenAI oracleHello "hi" ≠ "Hello" := by
  refine ⟨rfl, rfl, rfl, by decide⟩

/-- Witness for `query_all_models_spec` on the one-provider agent. -/
theorem query_all_models_spec_witness :
    (queryAllResponses agentOpenAI oracleHello "hi").map Prod.fst
      = agentOpenAI.available_models.map displayName :=
  (query_all_models_spec (some "k") none none agentOpenAI (by rfl) oracleHello "hi").1
